import Mathlib

/-!
# Verification of the chatbot-sdk core against its specification

Shallow embedding of the structured-message rendering pipeline, layered
style resolution, config merging and session persistence of the chatbot
SDK (`src/chatbot.js`, `src/renderer.js`, `src/utils.js`).  JavaScript
objects are modelled as association lists `List (String × α)`; object
spread `{...a, ...b}` is modelled operationally (copy `a`, then assign
each entry of `b` in order), and property lookup returns the first
matching key.
-/

namespace ChatbotSDK

/-- Property lookup on a JS object modelled as an association list:
`o[k]`, `none` when the key is absent. -/
def jsLookup {α : Type} (o : List (String × α)) (k : String) : Option α :=
  (o.find? (fun p => p.1 == k)).map (fun p => p.2)

/-- Property assignment `o[k] = v`: overwrite the existing entry for `k`
in place, or append a new entry. -/
def setKey {α : Type} (o : List (String × α)) (k : String) (v : α) :
    List (String × α) :=
  match o with
  | [] => [(k, v)]
  | p :: rest => if p.1 == k then (k, v) :: rest else p :: setKey rest k v

/-- JS object spread `{...a, ...b}`: start from a copy of `a`, then
assign every entry of `b` in order (later entries of `b` win). -/
def spread {α : Type} (a b : List (String × α)) : List (String × α) :=
  b.foldl (fun acc p => setKey acc p.1 p.2) a

/-!
## ConfigResolver: `mergeConfigs` (src/chatbot.js)

```js
mergeConfigs(newConfig) {
  this.config = {
    ...this.config,
    ...newConfig,
    style: { ...(this.config.style || {}), ...(newConfig.style || {}) },
    features: { ...(this.config.features || {}), ...(newConfig.features || {}) }
  };
}
```

A config is modelled with its `style` and `features` members split out
(the explicit `style:` / `features:` properties of the object literal
always overwrite whatever the two spreads put at those keys, so the
split is faithful); `Option` models an absent (or `null`) member, and
`|| {}` becomes `Option.getD []`.  Values are generic in `α`.
-/

structure Config (α : Type) where
  top : List (String × α)
  style : Option (List (String × α))
  features : Option (List (String × α))

/-- `mergeConfigs`, the overlay being `newConfig` and the base the
current `this.config`. -/
def mergeConfigs {α : Type} (base overlay : Config α) : Config α :=
  { top := spread base.top overlay.top
    style := some (spread (base.style.getD []) (overlay.style.getD []))
    features := some (spread (base.features.getD []) (overlay.features.getD [])) }

/-- Style-section lookup of a config (`config.style?.[k]`). -/
def styleLookup {α : Type} (c : Config α) (k : String) : Option α :=
  jsLookup (c.style.getD []) k

/-- Features-section lookup of a config (`config.features?.[k]`). -/
def featuresLookup {α : Type} (c : Config α) (k : String) : Option α :=
  jsLookup (c.features.getD []) k

/-!
## StyleResolver: `applyStyles` / `getDefaultStyles` (src/renderer.js)

A style object is an association list whose values are `Option String`:
`none` models a JS `null` or `undefined` property value (the code filters
the two identically with `value !== undefined && value !== null`),
`some v` a real style value.  An element's inline style is a plain
`List (String × String)` (only real values are ever applied; the
`--`-prefixed custom-property branch sets the same style map through
`setProperty`, so it needs no separate representation).
-/

abbrev StyleObj := List (String × Option String)

/-- JS property read `o.k`: `none` both when the key is absent
(`undefined`) and when it holds `null`/`undefined`. -/
def getProp (o : StyleObj) (k : String) : Option String :=
  (jsLookup o k).bind id

/-- The `style` section of the effective config as `applyStyles` reads
it: `style.components[component][elementType]` and `style.messages`. -/
structure ConfigStyle where
  components : Option (List (String × List (String × StyleObj)))
  messages : Option StyleObj

/-- `chatbot.config.style?.components?.[component]?.[elementType] || {}`. -/
def configStylesOf (style : Option ConfigStyle) (component elementType : String) :
    StyleObj :=
  (((style.bind ConfigStyle.components).bind
      (fun m => jsLookup m component)).bind
      (fun m => jsLookup m elementType)).getD []

/-- `chatbot.config.style?.messages || {}`. -/
def globalStylesOf (style : Option ConfigStyle) : StyleObj :=
  (style.bind ConfigStyle.messages).getD []

/-- `getDefaultStyles(component, elementType, globalStyles)`: the
fixed lookup table deriving per-element defaults from the global
`style.messages` section. -/
def getDefaultStyles (component elementType : String) (globalStyles : StyleObj) :
    StyleObj :=
  if component = "buttons" then
    if elementType = "button" then
      [("backgroundColor", getProp globalStyles "buttonColor"),
       ("color", getProp globalStyles "buttonTextColor")]
    else []
  else if component = "carousel" then
    (if elementType = "card" then
      [("backgroundColor", getProp globalStyles "botBubbleColor")]
    else []) ++
    (if elementType = "cardTitle" ∨ elementType = "cardSubtitle" then
      [("color", getProp globalStyles "botTextColor")]
    else [])
  else if component = "faq" then
    if elementType = "question" then
      [("color", getProp globalStyles "botTextColor")]
    else []
  else if component = "rating" then
    if elementType = "star" then
      [("color", getProp globalStyles "buttonColor")]
    else []
  else []

/-- The `Object.entries(styles).forEach` loop of `applyStyles`: apply
every entry whose value is neither `undefined` nor `null` to the
element's inline style. -/
def applyEntries (element : List (String × String)) (styles : StyleObj) :
    List (String × String) :=
  styles.foldl
    (fun el p =>
      match p.2 with
      | some v => setKey el p.1 v
      | none => el)
    element

/-- `applyStyles(element, component, elementType, messageStyles)`:
merge default, config and message tiers by object spread, then apply
the combined entries to the element. -/
def applyStyles (element : List (String × String)) (component elementType : String)
    (style : Option ConfigStyle) (messageStyles : StyleObj) :
    List (String × String) :=
  let configStyles := configStylesOf style component elementType
  let globalStyles := globalStylesOf style
  let styles :=
    spread (spread (getDefaultStyles component elementType globalStyles)
      configStyles) messageStyles
  applyEntries element styles

/-!
## SessionStore: persistence surface and message serialisation

`setLocalStorageItem` / `getLocalStorageItem` (src/utils.js) wrap a
string-valued key/value store (`localStorage`) and serialise through
`JSON.stringify` / `JSON.parse`.  A persisted message is a JS object
with string-valued fields (the controller itself only ever persists
such objects: `{sender, text}` user and fallback messages, and bot
response objects), modelled as an association list.
-/

abbrev StoredMsg := List (String × String)

/-- The character `\x7b` (opening curly brace). -/
def lbraceChar : Char := Char.ofNat 123

/-- The character `\x7d` (closing curly brace). -/
def rbraceChar : Char := Char.ofNat 125

/-!
### JSON codec for message sequences

Modelled from the spec: the persistence surface stores, under the
conversation key, a "JSON-encoded Message sequence"; `JSON.stringify`
and `JSON.parse` are host primitives whose source is not part of this
repository.  The encoder mirrors `JSON.stringify` on an array of
objects with string-valued fields (fields in insertion order, `"` and
`\` escaped); the decoder is a fuelled character-level parser for
exactly that grammar, `none` on anything malformed.
-/

def escapeChar (c : Char) : List Char :=
  if c = '"' ∨ c = '\\' then ['\\', c] else [c]

def escapeString : List Char → List Char
  | [] => []
  | c :: rest => escapeChar c ++ escapeString rest

/-- `"k":"v"` with both sides escaped. -/
def encodeField (p : String × String) : List Char :=
  '"' :: (escapeString p.1.data ++
    '"' :: ':' :: '"' :: (escapeString p.2.data ++ ['"']))

def encodeRestFields : List (String × String) → List Char
  | [] => []
  | p :: rest => ',' :: (encodeField p ++ encodeRestFields rest)

/-- `JSON.stringify` of one message object. -/
def encodeMsg : StoredMsg → List Char
  | [] => [lbraceChar, rbraceChar]
  | p :: rest => lbraceChar :: (encodeField p ++ encodeRestFields rest ++ [rbraceChar])

def encodeRestMsgs : List StoredMsg → List Char
  | [] => []
  | m :: rest => ',' :: (encodeMsg m ++ encodeRestMsgs rest)

/-- `JSON.stringify` of a message array. -/
def stringifyMsgs : List StoredMsg → List Char
  | [] => ['[', ']']
  | m :: rest => '[' :: (encodeMsg m ++ encodeRestMsgs rest ++ [']'])

/-- Parse the body of a JSON string up to its closing quote, undoing
`\`-escapes. -/
def parseStringBody : List Char → Option (List Char × List Char)
  | [] => none
  | c :: rest =>
    if c = '"' then some ([], rest)
    else if c = '\\' then
      match rest with
      | [] => none
      | d :: rest2 =>
        match parseStringBody rest2 with
        | some (s, r) => some (d :: s, r)
        | none => none
    else
      match parseStringBody rest with
      | some (s, r) => some (c :: s, r)
      | none => none

/-- Parse one `"k":"v"` field. -/
def parseField (cs : List Char) : Option ((String × String) × List Char) :=
  match cs with
  | [] => none
  | c :: rest =>
    if c = '"' then
      match parseStringBody rest with
      | none => none
      | some (k, r1) =>
        match r1 with
        | [] => none
        | c2 :: r2 =>
          if c2 = ':' then
            match r2 with
            | [] => none
            | c3 :: r3 =>
              if c3 = '"' then
                match parseStringBody r3 with
                | none => none
                | some (v, r4) => some ((String.mk k, String.mk v), r4)
              else none
          else none
    else none

/-- After one field of an object: `,` followed by another field, or the
closing brace.  `fuel` bounds the number of fields. -/
def parseMoreFields : Nat → List Char → Option (List (String × String) × List Char)
  | _, [] => none
  | 0, _ :: _ => none
  | fuel + 1, c :: rest =>
    if c = ',' then
      match parseField rest with
      | some (p, r1) =>
        match parseMoreFields fuel r1 with
        | some (ps, r2) => some (p :: ps, r2)
        | none => none
      | none => none
    else if c = rbraceChar then some ([], rest)
    else none

/-- Parse one message object `\x7b...\x7d`. -/
def parseMsgObj (fuel : Nat) (cs : List Char) : Option (StoredMsg × List Char) :=
  match cs with
  | [] => none
  | c :: rest =>
    if c = lbraceChar then
      match rest with
      | [] => none
      | c2 :: r2 =>
        if c2 = rbraceChar then some ([], r2)
        else
          match parseField rest with
          | some (p, r1) =>
            match parseMoreFields fuel r1 with
            | some (ps, r3) => some (p :: ps, r3)
            | none => none
          | none => none
    else none

/-- After one message of the array: `,` followed by another message, or
the closing bracket. -/
def parseMoreMsgs : Nat → Nat → List Char → Option (List StoredMsg × List Char)
  | _, _, [] => none
  | 0, _, _ :: _ => none
  | fuelM + 1, fuelF, c :: rest =>
    if c = ',' then
      match parseMsgObj fuelF rest with
      | some (m, r1) =>
        match parseMoreMsgs fuelM fuelF r1 with
        | some (ms, r2) => some (m :: ms, r2)
        | none => none
      | none => none
    else if c = ']' then some ([], rest)
    else none

/-- Parse a message array `[...]`. -/
def parseMsgs (fuelM fuelF : Nat) (cs : List Char) :
    Option (List StoredMsg × List Char) :=
  match cs with
  | [] => none
  | c :: rest =>
    if c = '[' then
      match rest with
      | [] => none
      | c2 :: r2 =>
        if c2 = ']' then some ([], r2)
        else
          match parseMsgObj fuelF rest with
          | some (m, r1) =>
            match parseMoreMsgs fuelM fuelF r1 with
            | some (ms, r3) => some (m :: ms, r3)
            | none => none
          | none => none
    else none

/-- `JSON.parse` on a stored conversation value: a fully consumed,
well-formed message array, `none` (a caught exception) otherwise. -/
def jsonParseMsgs (s : String) : Option (List StoredMsg) :=
  match parseMsgs (s.toList.length + 1) (s.toList.length + 1) s.toList with
  | some (l, []) => some l
  | _ => none

/-!
### The persistence surface and the controller's use of it
-/

/-- `localStorage`: a synchronous, string-keyed, string-valued map. -/
abbrev Store := List (String × String)

/-- `setLocalStorageItem(key, value)` for a message-sequence value:
`localStorage.setItem(key, JSON.stringify(value))` (the write is
accepted; a quota failure is outside this claim's hypothesis). -/
def setLocalStorageItem (store : Store) (key : String)
    (value : List StoredMsg) : Store :=
  setKey store key (String.mk (stringifyMsgs value))

/-- `getLocalStorageItem(key)` for a message-sequence value:
`item ? JSON.parse(item) : null`, `null` also on a caught parse
error. -/
def getLocalStorageItem (store : Store) (key : String) :
    Option (List StoredMsg) :=
  (jsLookup store key).bind jsonParseMsgs

/-- The conversation key `chatbot_conversation_${sessionId}`. -/
def convKey (sessionId : String) : String :=
  "chatbot_conversation_" ++ sessionId

/-- The widget state relevant to persistence: `this.messages` and the
storage behind it. -/
structure SessionState where
  messages : List StoredMsg
  store : Store

/-- The persistence effect of `displayMessage(message, save)`
(src/chatbot.js): when `save` is set, push onto `this.messages` and
re-persist the full updated sequence under the conversation key;
rendering with `save = false` touches neither. -/
def displayMessage (sessionId : String) (message : StoredMsg) (save : Bool)
    (st : SessionState) : SessionState :=
  if save then
    { messages := st.messages ++ [message]
      store := setLocalStorageItem st.store (convKey sessionId)
        (st.messages ++ [message]) }
  else st

/-- The history-loading read of `initSession`:
`getLocalStorageItem(`chatbot_conversation_${sessionId}`) || []`. -/
def loadHistory (store : Store) (sessionId : String) : List StoredMsg :=
  (getLocalStorageItem store (convKey sessionId)).getD []

/-!
## ConfigResolver: `refreshConfig` (src/chatbot.js)

```js
async refreshConfig() {
  try {
    const response = await fetch(`${this.config.configApiUrl}?t=${Date.now()}`);
    const newConfig = await response.json();
    this.mergeConfigs(newConfig);
    this.applyDynamicStyles();
    this.updateUIElements();
    return true;
  } catch (error) { return false; }
}
```

`fetch` rejects only on network failure; it resolves normally on any
HTTP status, and `refreshConfig` never consults `response.ok` or the
status — the only remaining failure point before the merge is
`response.json()` on an unparseable body.
-/

/-- Outcome of the config `fetch`: network failure, or an HTTP response
with its status and its body (`none` when the body is not valid
JSON). -/
inductive FetchOutcome (α : Type) where
  | networkError : FetchOutcome α
  | response (status : Nat) (body : Option (Config α)) : FetchOutcome α

/-- `refreshConfig`: the resulting effective config paired with the
returned boolean (`applyDynamicStyles`/`updateUIElements` touch only the
UI, not the config). -/
def refreshConfig {α : Type} (current : Config α) (outcome : FetchOutcome α) :
    Config α × Bool :=
  match outcome with
  | .networkError => (current, false)
  | .response _ none => (current, false)
  | .response _ (some newConfig) => (mergeConfigs current newConfig, true)

/-!
## ConversationController: `sendMessage` (src/chatbot.js)

```js
async sendMessage(text = null, payload = null) {
  let messageText = text || this.elements.inputField.value.trim();
  if (!messageText && !payload) return;
  const userMessage = { sender: 'user', text: messageText };
  this.displayMessage(userMessage);
  const requestBody = { sender: this.sessionId, message: messageText,
    ...(payload && { customData: { payload } }) };
  try {
    const response = await fetch(this.config.botUrl, {...});
    if (!response.ok) throw new Error(...);
    const botResponses = await response.json();
    if (botResponses?.length > 0) {
      botResponses.forEach(r => this.displayMessage({ sender: 'bot', ...r }));
    } else {
      this.displayMessage({ sender: 'bot', text: "Sorry, I didn't get a response." });
    }
  } catch (error) {
    this.displayMessage({ sender: 'bot',
      text: "I'm having trouble connecting. Please try again later." });
  }
}
```
-/

/-- JS falsiness of an optional string (`null`/`undefined` and the empty
string are falsy). -/
def falsyOpt : Option String → Bool
  | none => true
  | some s => s == ""

/-- `text || this.elements.inputField.value.trim()`. -/
def messageTextOf (text : Option String) (inputValue : String) : String :=
  match text with
  | some t => if t = "" then inputValue.trim else t
  | none => inputValue.trim

/-- The JSON body POSTed to the backend. -/
structure RequestBody where
  sender : String
  message : String
  customData : Option String
deriving DecidableEq

/-- Outcome of the backend POST: network failure, or a response with its
`ok` flag and its parsed body — `none` when `response.json()` throws,
`some none` when the JSON is not an array (e.g. `null`), `some (some rs)`
an array of message-shaped objects. -/
inductive SendOutcome where
  | networkError : SendOutcome
  | httpResponse (ok : Bool) (body : Option (Option (List StoredMsg))) : SendOutcome
deriving DecidableEq

/-- The connection-failure apology shown from the `catch` block. -/
def connectFallbackText : String :=
  "I\x27m having trouble connecting. Please try again later."

/-- The apology shown when the backend answers with an empty list. -/
def emptyFallbackText : String := "Sorry, I didn\x27t get a response."

/-- `sendMessage(text, payload)` under a given backend outcome: the
request body issued (`none` when the guard returns early) and the
messages displayed, in display order.  The surrounding `try`/`catch`
makes the function total: every outcome, including thrown errors, ends
in a displayed message list, never a propagated exception. -/
def sendMessage (sessionId : String) (text payload : Option String)
    (inputValue : String) (outcome : SendOutcome) :
    Option RequestBody × List StoredMsg :=
  let messageText := messageTextOf text inputValue
  if messageText = "" ∧ falsyOpt payload = true then (none, [])
  else
    let userMessage : StoredMsg := [("sender", "user"), ("text", messageText)]
    let requestBody : RequestBody :=
      { sender := sessionId
        message := messageText
        customData := if falsyOpt payload then none else payload }
    let botMessages : List StoredMsg :=
      match outcome with
      | .networkError => [[("sender", "bot"), ("text", connectFallbackText)]]
      | .httpResponse false _ => [[("sender", "bot"), ("text", connectFallbackText)]]
      | .httpResponse true none => [[("sender", "bot"), ("text", connectFallbackText)]]
      | .httpResponse true (some none) =>
          [[("sender", "bot"), ("text", emptyFallbackText)]]
      | .httpResponse true (some (some rs)) =>
          if rs.length > 0 then rs.map (fun r => spread [("sender", "bot")] r)
          else [[("sender", "bot"), ("text", emptyFallbackText)]]
    (some requestBody, userMessage :: botMessages)

/-- `sendMessage` together with its persistence effects: every displayed
message goes through `displayMessage(…, save = true)`. -/
def sendMessagePersist (sessionId : String) (text payload : Option String)
    (inputValue : String) (outcome : SendOutcome) (st : SessionState) :
    Option RequestBody × SessionState :=
  let r := sendMessage sessionId text payload inputValue outcome
  (r.1, r.2.foldl (fun s m => displayMessage sessionId m true s) st)

/-- The failure cases enumerated by the claim: network error, non-2xx
status, malformed JSON body, or an empty response list. -/
def isFailureOutcome : SendOutcome → Bool
  | .networkError => true
  | .httpResponse false _ => true
  | .httpResponse true none => true
  | .httpResponse true (some none) => false
  | .httpResponse true (some (some rs)) => rs.isEmpty

/-- The fixed fallback text the code actually shows in each failure
case: the empty-list case has its own text, every other failure shares
the connection apology. -/
def expectedFallbackText : SendOutcome → String
  | .httpResponse true (some (some _)) => emptyFallbackText
  | _ => connectFallbackText

/-!
## MessageRenderer (src/renderer.js)

The render-side view of a message and its custom payload, and the
element-creation functions.  `createVideo` can throw (a JS `TypeError`
on `undefined.split`), so it and everything rendering through it is
`Except`-valued; every other creation function is total.  Style
application (`applyStyles`) mutates only element styling and is covered
by C1; it is omitted from the render-tree values.
-/

structure ButtonSpec where
  title : String
  payload : Option String
  url : Option String
  question : Option String
  button_color : Option String
deriving DecidableEq

structure VideoObj where
  url : Option String
  autoplay : Bool
deriving DecidableEq

structure CarouselItem where
  image_url : Option String
  title : String
  subtitle : Option String
  buttons : List ButtonSpec
deriving DecidableEq

structure LocationItem where
  lat : String
  lng : String
  name : String
  address : Option String
deriving DecidableEq

structure FaqItem where
  question : String
  answer : String
deriving DecidableEq

structure TableData where
  headers : Option (List String)
  rows : Option (List (List String))
deriving DecidableEq

structure RatingData where
  scale : Nat
  title : Option String
deriving DecidableEq

structure FormField where
  field_name : String
  label : Option String
  fieldType : String
  options : Option (List String)
  placeholder : Option String
  required : Bool
deriving DecidableEq

structure FormsData where
  fields : Option (List FormField)
  submit_payload : Option String
  title : Option String
  submit_button_text : Option String
deriving DecidableEq

structure CustomPayload where
  locations : Option (List LocationItem)
  faq_list : Option (List FaqItem)
  table : Option TableData
  rating : Option RatingData
  forms : Option FormsData
  video : Option VideoObj
deriving DecidableEq

/-- One node of the render tree, carrying the data it was built from. -/
inductive RenderNode where
  | textNode (text : String)
  | buttonGroup (buttons : List ButtonSpec)
  | image (src : String)
  | iframe (src : String)
  | videoEl (src : String) (autoplay : Bool)
  | carouselEl (items : List CarouselItem)
  | locationsEl (items : List LocationItem)
  | faqEl (items : List FaqItem)
  | tableEl (headers : List String) (rows : List (List String))
  | ratingEl (scale : Nat) (title : String)
  | formEl (fields : List FormField) (submitText : String)
  | customContainer (children : List RenderNode)

/-- The message fields `displayMessage` renders, in its fixed order. -/
structure RMessage where
  sender : String
  text : Option String
  buttons : List ButtonSpec
  image : Option String
  video : Option VideoObj
  carousel : List CarouselItem
  custom : Option CustomPayload
deriving DecidableEq

/-- `createButtons`: `null` on an empty list, otherwise the button
container. -/
def createButtonsNode (buttons : List ButtonSpec) : Option RenderNode :=
  if buttons.isEmpty then none else some (.buttonGroup buttons)

/-- `createImage`: `null` on a falsy url. -/
def createImage (imageUrl : Option String) : Option RenderNode :=
  if falsyOpt imageUrl then none else some (.image (imageUrl.getD ""))

/-- JS `String.prototype.includes`: substring containment. -/
def containsSub (pattern s : String) : Bool :=
  decide (pattern.toList <:+: s.toList)

/-- Drop `pfx` from the front of `s` when it is a prefix. -/
def dropPfx : List Char → List Char → Option (List Char)
  | [], s => some s
  | _ :: _, [] => none
  | p :: ps, c :: cs => if p = c then dropPfx ps cs else none

/-- Prepend a character to the first chunk of a split result. -/
def consHead (c : Char) : List (List Char) → List (List Char)
  | [] => [[c]]
  | l :: ls => (c :: l) :: ls

/-- JS `String.prototype.split` with a non-empty string separator, on
character lists (`fuel` bounds the scan; `length + 1` always
suffices). -/
def splitOnFuel (sep : List Char) : Nat → List Char → List (List Char)
  | 0, s => [s]
  | fuel + 1, s =>
    match s with
    | [] => [[]]
    | c :: rest =>
      match dropPfx sep (c :: rest) with
      | some remainder => [] :: splitOnFuel sep fuel remainder
      | none => consHead c (splitOnFuel sep fuel rest)

/-- JS `url.split(sep)`. -/
def jsSplit (sep s : String) : List String :=
  (splitOnFuel sep.data (s.data.length + 1) s.data).map String.mk

/-- `createVideo` (src/renderer.js):

```js
function createVideo(videoObj, styleOverrides = {}) {
  if (!videoObj.url) return null;
  const isYouTube = videoObj.url.includes("youtube.com/watch") || videoObj.url.includes("youtu.be");
  if (isYouTube) {
    let videoId;
    if (videoObj.url.includes("youtu.be")) {
      videoId = videoObj.url.split("/").pop().split("?")[0];
    } else {
      videoId = videoObj.url.split("v=")[1].split("&")[0];
    }
    ... iframe ...
  } else { ... <video> element ... }
}
```

`url.split("v=")[1]` is `undefined` when the url has no `"v="`; calling
`.split` on it throws a `TypeError`, modelled as `Except.error`. -/
def createVideo (video : VideoObj) : Except String (Option RenderNode) :=
  if falsyOpt video.url then .ok none
  else
    let url := video.url.getD ""
    let isYouTube := containsSub "youtube.com/watch" url ||
      containsSub "youtu.be" url
    if isYouTube then
      if containsSub "youtu.be" url then
        let videoId := ((jsSplit "?" ((jsSplit "/" url).getLastD "")).headD "")
        .ok (some (.iframe
          ("https://www.youtube.com/embed/" ++ videoId ++ "?autoplay=0")))
      else
        match (jsSplit "v=" url)[1]? with
        | none => .error "TypeError: undefined has no method split"
        | some second =>
            let videoId := (jsSplit "&" second).headD ""
            .ok (some (.iframe
              ("https://www.youtube.com/embed/" ++ videoId ++ "?autoplay=0")))
    else .ok (some (.videoEl url video.autoplay))

/-- The exact condition under which `createVideo` throws: a defined url
containing `youtube.com/watch` but neither `youtu.be` nor a `v=`
parameter. -/
def createVideoThrows (video : VideoObj) : Bool :=
  !(falsyOpt video.url) &&
  containsSub "youtube.com/watch" (video.url.getD "") &&
  !(containsSub "youtu.be" (video.url.getD "")) &&
  (jsSplit "v=" (video.url.getD ""))[1]?.isNone

/-- `createCarousel`: `null` on an empty list. -/
def createCarousel (items : List CarouselItem) : Option RenderNode :=
  if items.isEmpty then none else some (.carouselEl items)

/-- `createLocationsMap`: `null` on an empty list. -/
def createLocationsMap (locations : List LocationItem) : Option RenderNode :=
  if locations.isEmpty then none else some (.locationsEl locations)

/-- `createFaqList`: `null` on an empty list. -/
def createFaqList (faqs : List FaqItem) : Option RenderNode :=
  if faqs.isEmpty then none else some (.faqEl faqs)

/-- `createTable`: `null` when `headers` or `rows` is missing. -/
def createTable (t : TableData) : Option RenderNode :=
  match t.headers, t.rows with
  | some hs, some rs => some (.tableEl hs rs)
  | _, _ => none

/-- `createRating`: `null` when `scale` is falsy (0). -/
def createRating (r : RatingData) : Option RenderNode :=
  if r.scale = 0 then none
  else some (.ratingEl r.scale (r.title.getD "Please rate:"))

/-- `createDynamicForm`: `null` when `fields` is not a non-empty array
or `submit_payload` is falsy. -/
def createDynamicForm (f : FormsData) : Option RenderNode :=
  match f.fields with
  | none => none
  | some fields =>
      if fields.isEmpty then none
      else if falsyOpt f.submit_payload then none
      else some (.formEl fields (f.submit_button_text.getD "Submit"))

/-- `renderCustomPayload`: one render per present variant key, in the
fixed order locations, faq_list, table, rating, forms, video; `null`
when no child was produced. -/
def renderCustomPayload (cp : CustomPayload) :
    Except String (Option RenderNode) := do
  let videoNodes ←
    match cp.video with
    | some v => do
        let n ← createVideo v
        pure n.toList
    | none => pure []
  let children :=
    (match cp.locations with
      | some ls => (createLocationsMap ls).toList
      | none => []) ++
    (match cp.faq_list with
      | some fs => (createFaqList fs).toList
      | none => []) ++
    (match cp.table with
      | some t => (createTable t).toList
      | none => []) ++
    (match cp.rating with
      | some r => (createRating r).toList
      | none => []) ++
    (match cp.forms with
      | some f => (createDynamicForm f).toList
      | none => []) ++
    videoNodes
  pure (if children.isEmpty then none else some (.customContainer children))

/-- The render-tree part of `displayMessage`: one node per populated
field, in the fixed order text, buttons, image, video, carousel,
custom. -/
def displayChildren (m : RMessage) : Except String (List RenderNode) := do
  let textNodes :=
    match m.text with
    | some t => if t = "" then [] else [RenderNode.textNode t]
    | none => []
  let buttonNodes :=
    if m.buttons.length > 0 then (createButtonsNode m.buttons).toList else []
  let imageNodes :=
    if falsyOpt m.image then [] else (createImage m.image).toList
  let videoNodes ←
    match m.video with
    | some v => do
        let n ← createVideo v
        pure n.toList
    | none => pure []
  let carouselNodes :=
    if m.carousel.length > 0 then (createCarousel m.carousel).toList else []
  let customNodes ←
    match m.custom with
    | some cp => do
        let n ← renderCustomPayload cp
        pure n.toList
    | none => pure []
  pure (textNodes ++ buttonNodes ++ imageNodes ++ videoNodes ++
    carouselNodes ++ customNodes)

/-!
## Button click dispatch (createButtons, src/renderer.js)

Each button gets at most one click listener; `payload` and `question`
listeners first disable every button of the container, then invoke the
send callback once; `url` listeners call `window.open` and disable
nothing.  A disabled DOM button fires no click events.
-/

/-- One observable effect of a button activation. -/
inductive BtnAction where
  | submit (title payload : String)
  | openUrl (url : String)
deriving DecidableEq

def isSubmit : BtnAction → Bool
  | .submit _ _ => true
  | .openUrl _ => false

/-- A click on button `i` of a rendered group: the dispatched actions
and the new disabled-flags of the group (one flag per button, rendered
all-enabled). -/
def clickButton (buttons : List ButtonSpec) (disabled : List Bool) (i : Nat) :
    List BtnAction × List Bool :=
  if disabled.getD i false then ([], disabled)
  else
    match buttons.get? i with
    | none => ([], disabled)
    | some btn =>
      if falsyOpt btn.payload = false then
        ([.submit btn.title (btn.payload.getD "")], disabled.map (fun _ => true))
      else if falsyOpt btn.url = false then
        ([.openUrl (btn.url.getD "")], disabled)
      else if falsyOpt btn.question = false then
        ([.submit btn.title (btn.question.getD "")], disabled.map (fun _ => true))
      else ([], disabled)

/-- A sequence of clicks on a rendered group, threading the
disabled-flags. -/
def runClicks (buttons : List ButtonSpec) :
    List Nat → List Bool → List BtnAction × List Bool
  | [], disabled => ([], disabled)
  | i :: rest, disabled =>
    let r := clickButton buttons disabled i
    let r2 := runClicks buttons rest r.2
    (r.1 ++ r2.1, r2.2)

/-!
## Rating stars (createRating, src/renderer.js)

Stars are created for `i` from `scale` down to `1` (layout order) with
`dataset.value = i`; clicking star `i` sets `selectedRating = i`, marks
each star `selected` iff its value is `≤ i`, and invokes the send
callback once with ``Rated ${i} stars`` and
``/rate_service{"rating":${i}}``.
-/

/-- The star values in layout order: `scale, scale-1, …, 1`. -/
def ratingStars (scale : Nat) : List Nat :=
  (List.range scale).map (fun k => scale - k)

/-- The payload string `/rate_service{"rating":i}`. -/
def ratePayload (i : Nat) : String :=
  "/rate_service\x7b\"rating\":" ++ toString i ++ "\x7d"

/-- Clicking star `i`: the single (text, payload) pair handed to the
send callback, and each star value with its `selected` mark. -/
def clickStar (scale i : Nat) : (String × String) × List (Nat × Bool) :=
  (("Rated " ++ toString i ++ " stars", ratePayload i),
   (ratingStars scale).map (fun v => (v, decide (v ≤ i))))


/-!
## Theorems
-/

@[simp] theorem jsLookup_nil {α : Type} (k : String) :
    jsLookup ([] : List (String × α)) k = none := rfl

theorem jsLookup_cons {α : Type} (p : String × α) (o : List (String × α))
    (k : String) :
    jsLookup (p :: o) k = if p.1 = k then some p.2 else jsLookup o k := by
  by_cases h : p.1 = k
  · have hb : (p.1 == k) = true := by simp [h]
    simp [jsLookup, List.find?_cons, hb, h]
  · have hb : (p.1 == k) = false := by simp [h]
    simp [jsLookup, List.find?_cons, hb, h]

theorem jsLookup_setKey {α : Type} (o : List (String × α)) (k : String)
    (v : α) (k2 : String) :
    jsLookup (setKey o k v) k2 = if k2 = k then some v else jsLookup o k2 := by
  induction o with
  | nil =>
      simp only [setKey]
      rw [jsLookup_cons]
      by_cases h : k2 = k
      · rw [if_pos h.symm, if_pos h]
      · rw [if_neg (fun hh => h hh.symm), if_neg h, jsLookup_nil]
  | cons p rest ih =>
      simp only [setKey]
      by_cases hp : p.1 = k
      · rw [if_pos (by simp [hp])]
        rw [jsLookup_cons, jsLookup_cons]
        by_cases h : k2 = k
        · rw [if_pos h, if_pos h.symm]
        · have hpk2 : ¬ p.1 = k2 := fun hh => h (hh.symm.trans hp)
          rw [if_neg h, if_neg (fun hh => h hh.symm), if_neg hpk2]
      · rw [if_neg (by simp [hp])]
        rw [jsLookup_cons, ih, jsLookup_cons]
        by_cases hpk : p.1 = k2
        · have hk2 : ¬ k2 = k := fun hh => hp (hpk.trans hh)
          simp [hpk, hk2]
        · by_cases h : k2 = k <;> simp [hpk, h, hp]

theorem jsLookup_eq_none_of_not_mem {α : Type} (o : List (String × α))
    (k : String) (h : k ∉ o.map Prod.fst) : jsLookup o k = none := by
  induction o with
  | nil => rfl
  | cons p rest ih =>
      simp only [List.map_cons, List.mem_cons] at h
      push_neg at h
      rw [jsLookup_cons, if_neg (fun hh => h.1 hh.symm)]
      exact ih h.2

/-- Lookup through a spread: entries of `b` win, entries of `a` survive
when `b` does not mention their key (requires the overlay's keys to be
duplicate-free, as JS object literals guarantee). -/
theorem jsLookup_spread {α : Type} (a b : List (String × α)) (k : String)
    (hb : (b.map Prod.fst).Nodup) :
    jsLookup (spread a b) k =
      match jsLookup b k with
      | some v => some v
      | none => jsLookup a k := by
  induction b generalizing a with
  | nil => simp [spread]
  | cons q rest ih =>
      simp only [List.map_cons, List.nodup_cons] at hb
      have step : spread a (q :: rest) = spread (setKey a q.1 q.2) rest := rfl
      rw [step, ih _ hb.2, jsLookup_cons]
      by_cases h : q.1 = k
      · subst h
        have hnone : jsLookup rest q.1 = (none : Option α) :=
          jsLookup_eq_none_of_not_mem rest q.1 hb.1
        rw [hnone, if_pos rfl, jsLookup_setKey, if_pos rfl]
      · rw [if_neg h]
        cases hr : jsLookup rest k with
        | some v => rfl
        | none =>
            rw [jsLookup_setKey, if_neg (fun hh => h hh.symm)]

/-- **C2** For every pair of configs, merging lets every top-level
overlay key win, preserves base keys absent from the overlay, and merges
the `style` and `features` sections key-by-key one level deep (overlay
keys win, base keys absent from the overlay survive).  The overlay's
objects are required to have duplicate-free keys, as any object parsed
from JSON does. -/
theorem mergeConfigs_spec {α : Type} (base overlay : Config α)
    (ht : (overlay.top.map Prod.fst).Nodup)
    (hs : ((overlay.style.getD []).map Prod.fst).Nodup)
    (hf : ((overlay.features.getD []).map Prod.fst).Nodup) :
    (∀ k v, jsLookup overlay.top k = some v →
        jsLookup (mergeConfigs base overlay).top k = some v) ∧
    (∀ k, jsLookup overlay.top k = none →
        jsLookup (mergeConfigs base overlay).top k = jsLookup base.top k) ∧
    (∀ k v, styleLookup overlay k = some v →
        styleLookup (mergeConfigs base overlay) k = some v) ∧
    (∀ k, styleLookup overlay k = none →
        styleLookup (mergeConfigs base overlay) k = styleLookup base k) ∧
    (∀ k v, featuresLookup overlay k = some v →
        featuresLookup (mergeConfigs base overlay) k = some v) ∧
    (∀ k, featuresLookup overlay k = none →
        featuresLookup (mergeConfigs base overlay) k = featuresLookup base k) := by
  refine ⟨?_, ?_, ?_, ?_, ?_, ?_⟩
  · intro k v h
    rw [mergeConfigs, jsLookup_spread _ _ _ ht, h]
  · intro k h
    rw [mergeConfigs, jsLookup_spread _ _ _ ht, h]
  · intro k v h
    rw [styleLookup] at h
    rw [styleLookup, mergeConfigs, Option.getD_some, jsLookup_spread _ _ _ hs, h]
  · intro k h
    rw [styleLookup] at h
    rw [styleLookup, mergeConfigs, Option.getD_some, jsLookup_spread _ _ _ hs, h]
    rfl
  · intro k v h
    rw [featuresLookup] at h
    rw [featuresLookup, mergeConfigs, Option.getD_some,
      jsLookup_spread _ _ _ hf, h]
  · intro k h
    rw [featuresLookup] at h
    rw [featuresLookup, mergeConfigs, Option.getD_some,
      jsLookup_spread _ _ _ hf, h]
    rfl

/-- Witness for `mergeConfigs_spec`: on concrete base and overlay
configs, the overlay's `botName` wins in the merged top level. -/
theorem mergeConfigs_spec_witness :
    jsLookup (mergeConfigs
      ⟨[("botUrl", "u"), ("botName", "A")], some [("themeColor", "red")], none⟩
      ⟨[("botName", "B")], some [("animation", "none")], some [("x", "1")]⟩).top
      "botName" = some "B" := by
  exact (mergeConfigs_spec
    ⟨[("botUrl", "u"), ("botName", "A")], some [("themeColor", "red")], none⟩
    ⟨[("botName", "B")], some [("animation", "none")], some [("x", "1")]⟩
    (by decide) (by decide) (by decide)).1 "botName" "B" rfl

/-- **C9** After every `mergeConfigs`, the `style` and `features`
members of the effective config are defined objects, even when neither
input defined them. -/
theorem mergeConfigs_style_features_defined {α : Type}
    (base overlay : Config α) :
    (mergeConfigs base overlay).style.isSome ∧
    (mergeConfigs base overlay).features.isSome := by
  exact ⟨rfl, rfl⟩

theorem mem_keys_setKey {α : Type} (o : List (String × α)) (k : String)
    (v : α) (x : String) :
    x ∈ (setKey o k v).map Prod.fst ↔ x = k ∨ x ∈ o.map Prod.fst := by
  induction o with
  | nil => simp [setKey]
  | cons p rest ih =>
      simp only [setKey]
      by_cases hp : p.1 = k
      · rw [if_pos (by simp [hp])]
        subst hp
        simp
      · rw [if_neg (by simp [hp])]
        simp only [List.map_cons, List.mem_cons, ih]
        tauto

theorem nodupKeys_setKey {α : Type} (o : List (String × α)) (k : String)
    (v : α) (h : (o.map Prod.fst).Nodup) :
    ((setKey o k v).map Prod.fst).Nodup := by
  induction o with
  | nil => simp [setKey]
  | cons p rest ih =>
      simp only [List.map_cons, List.nodup_cons] at h
      simp only [setKey]
      by_cases hp : p.1 = k
      · rw [if_pos (by simp [hp])]
        simp only [List.map_cons, List.nodup_cons]
        exact ⟨hp ▸ h.1, h.2⟩
      · rw [if_neg (by simp [hp])]
        simp only [List.map_cons, List.nodup_cons]
        refine ⟨?_, ih h.2⟩
        rw [mem_keys_setKey]
        push_neg
        exact ⟨hp, h.1⟩

theorem nodupKeys_spread {α : Type} (a b : List (String × α))
    (h : (a.map Prod.fst).Nodup) : ((spread a b).map Prod.fst).Nodup := by
  induction b generalizing a with
  | nil => exact h
  | cons q rest ih =>
      have step : spread a (q :: rest) = spread (setKey a q.1 q.2) rest := rfl
      rw [step]
      exact ih _ (nodupKeys_setKey a q.1 q.2 h)

/-- Applying a duplicate-key-free style object to an element: the
looked-up result is the object's defined value when it has one,
otherwise whatever the element already had. -/
theorem jsLookup_applyEntries (element : List (String × String))
    (styles : StyleObj) (k : String)
    (h : (styles.map Prod.fst).Nodup) :
    jsLookup (applyEntries element styles) k =
      match getProp styles k with
      | some v => some v
      | none => jsLookup element k := by
  induction styles generalizing element with
  | nil => simp [applyEntries, getProp]
  | cons p rest ih =>
      simp only [List.map_cons, List.nodup_cons] at h
      have step : applyEntries element (p :: rest) =
          applyEntries (match p.2 with
            | some v => setKey element p.1 v
            | none => element) rest := rfl
      rw [step, ih _ h.2]
      have hgp : getProp (p :: rest) k =
          if p.1 = k then p.2 else getProp rest k := by
        rw [getProp, jsLookup_cons]
        by_cases hp : p.1 = k
        · rw [if_pos hp, if_pos hp]
          cases p.2 <;> rfl
        · rw [if_neg hp, if_neg hp]
          rfl
      rw [hgp]
      by_cases hp : p.1 = k
      · have hrest : jsLookup rest k = none :=
          jsLookup_eq_none_of_not_mem rest k (hp ▸ h.1)
        have hgrest : getProp rest k = none := by
          rw [getProp, hrest]; rfl
        rw [hgrest, if_pos hp]
        cases hv : p.2 with
        | some v =>
            rw [jsLookup_setKey, if_pos (Eq.symm hp)]
        | none => rfl
      · rw [if_neg hp]
        cases hgr : getProp rest k with
        | some v => rfl
        | none =>
            cases hv : p.2 with
            | some v =>
                rw [jsLookup_setKey, if_neg (fun hh => hp (Eq.symm hh))]
            | none => rfl

theorem nodupKeys_getDefaultStyles (component elementType : String)
    (globalStyles : StyleObj) :
    ((getDefaultStyles component elementType globalStyles).map Prod.fst).Nodup := by
  rw [getDefaultStyles]
  split_ifs <;> simp_all

/-- A defined lookup in a style object all of whose values are defined
yields a defined value. -/
theorem isSome_of_jsLookup {o : StyleObj} {k : String} {ov : Option String}
    (hV : ∀ p ∈ o, p.2.isSome = true) (h : jsLookup o k = some ov) :
    ∃ v, ov = some v := by
  rw [jsLookup] at h
  cases hf : o.find? (fun p => p.1 == k) with
  | none => rw [hf] at h; simp at h
  | some q =>
      rw [hf] at h
      simp at h
      have hq := List.mem_of_find?_eq_some hf
      have hqs := hV q hq
      cases hv : q.2 with
      | none => rw [hv] at hqs; simp at hqs
      | some v => exact ⟨v, by rw [← h, hv]⟩

/-- **C1** Three-tier style resolution: on a freshly created element,
`applyStyles` assigns each style property the message-override value
when that tier defines it, otherwise the config value from
`style.components[component][elementType]`, otherwise the default
derived from `style.messages` by the fixed table, and leaves the
property unset when no tier defines a value for it.  The config and
message tiers are required to be well-formed style objects
(duplicate-free keys, no `null` values), as any style map parsed from
JSON config or message data is. -/
theorem applyStyles_three_tier (style : Option ConfigStyle) (messageStyles : StyleObj)
    (component elementType prop : String)
    (hcN : ((configStylesOf style component elementType).map Prod.fst).Nodup)
    (hmN : (messageStyles.map Prod.fst).Nodup)
    (hcV : ∀ p ∈ configStylesOf style component elementType, p.2.isSome = true)
    (hmV : ∀ p ∈ messageStyles, p.2.isSome = true) :
    jsLookup (applyStyles [] component elementType style messageStyles) prop =
      match getProp messageStyles prop with
      | some v => some v
      | none =>
        match getProp (configStylesOf style component elementType) prop with
        | some v => some v
        | none =>
            getProp
              (getDefaultStyles component elementType (globalStylesOf style))
              prop := by
  have hdN := nodupKeys_getDefaultStyles component elementType (globalStylesOf style)
  have hsN : ((spread (spread
      (getDefaultStyles component elementType (globalStylesOf style))
      (configStylesOf style component elementType)) messageStyles).map
        Prod.fst).Nodup :=
    nodupKeys_spread _ _ (nodupKeys_spread _ _ hdN)
  have hmerged : getProp (spread (spread
      (getDefaultStyles component elementType (globalStylesOf style))
      (configStylesOf style component elementType)) messageStyles) prop =
      match getProp messageStyles prop with
      | some v => some v
      | none =>
        match getProp (configStylesOf style component elementType) prop with
        | some v => some v
        | none =>
            getProp
              (getDefaultStyles component elementType (globalStylesOf style))
              prop := by
    rw [getProp, jsLookup_spread _ _ _ hmN]
    cases hm : jsLookup messageStyles prop with
    | some ov =>
        obtain ⟨v, hv⟩ := isSome_of_jsLookup hmV hm
        subst hv
        have hgm : getProp messageStyles prop = some v := by
          rw [getProp, hm]; rfl
        rw [hgm]
        rfl
    | none =>
        have hgm : getProp messageStyles prop = none := by
          rw [getProp, hm]; rfl
        rw [hgm, jsLookup_spread _ _ _ hcN]
        cases hc : jsLookup (configStylesOf style component elementType) prop with
        | some ov =>
            obtain ⟨v, hv⟩ := isSome_of_jsLookup hcV hc
            subst hv
            have hgc : getProp (configStylesOf style component elementType) prop =
                some v := by
              rw [getProp, hc]; rfl
            rw [hgc]
            rfl
        | none =>
            have hgc : getProp (configStylesOf style component elementType) prop =
                none := by
              rw [getProp, hc]; rfl
            rw [hgc]
            rfl
  rw [applyStyles, jsLookup_applyEntries _ _ _ hsN, hmerged]
  cases hm : getProp messageStyles prop with
  | some v => rfl
  | none =>
      cases hc : getProp (configStylesOf style component elementType) prop with
      | some v => rfl
      | none =>
          cases hd : getProp
              (getDefaultStyles component elementType (globalStylesOf style))
              prop with
          | some v => rfl
          | none => rfl

/-- Witness for `applyStyles_three_tier`: concrete config and message
tiers; the message override wins for `backgroundColor`, the config tier
supplies `color`, the default tier supplies nothing here. -/
theorem applyStyles_three_tier_witness :
    jsLookup
      (applyStyles [] "buttons" "button"
        (some ⟨some [("buttons", [("button",
          [("color", some "blue"), ("padding", some "4px")])])],
          some [("buttonColor", some "green")]⟩)
        [("backgroundColor", some "red")]) "backgroundColor" = some "red" := by
  have h := applyStyles_three_tier
    (some ⟨some [("buttons", [("button",
      [("color", some "blue"), ("padding", some "4px")])])],
      some [("buttonColor", some "green")]⟩)
    [("backgroundColor", some "red")] "buttons" "button" "backgroundColor"
    (by decide) (by decide) (by decide) (by decide)
  rw [h]
  rfl

theorem parseStringBody_escape (s rest : List Char) :
    parseStringBody (escapeString s ++ '"' :: rest) = some (s, rest) := by
  induction s with
  | nil =>
      rw [show escapeString [] ++ '"' :: rest = '"' :: rest by simp [escapeString]]
      rw [parseStringBody.eq_def]
      simp
  | cons c cs ih =>
      by_cases h : c = '"' ∨ c = '\\'
      · have he : escapeString (c :: cs) ++ '"' :: rest =
            '\\' :: c :: (escapeString cs ++ '"' :: rest) := by
          simp [escapeString, escapeChar, h]
        rw [he, parseStringBody.eq_def]
        simp [ih]
      · push_neg at h
        have he : escapeString (c :: cs) ++ '"' :: rest =
            c :: (escapeString cs ++ '"' :: rest) := by
          simp [escapeString, escapeChar, h.1, h.2]
        rw [he, parseStringBody.eq_def]
        simp [ih, h.1, h.2]

theorem mkToList (s : String) : String.mk s.data = s := rfl

theorem parseField_encodeField (p : String × String) (rest : List Char) :
    parseField (encodeField p ++ rest) = some (p, rest) := by
  have h1 : encodeField p ++ rest =
      '"' :: (escapeString p.1.data ++
        '"' :: (':' :: '"' :: (escapeString p.2.data ++ '"' :: rest))) := by
    simp [encodeField]
  rw [h1, parseField.eq_def]
  simp [parseStringBody_escape, mkToList]

theorem parseMoreFields_encodeRest (ps : List (String × String)) :
    ∀ (fuel : Nat) (rest : List Char), ps.length < fuel →
      parseMoreFields fuel (encodeRestFields ps ++ rbraceChar :: rest) =
        some (ps, rest) := by
  induction ps with
  | nil =>
      intro fuel rest hf
      match fuel, hf with
      | f + 1, _ =>
        have hne : ¬ rbraceChar = ',' := by decide
        rw [show encodeRestFields [] ++ rbraceChar :: rest = rbraceChar :: rest
          by simp [encodeRestFields]]
        rw [parseMoreFields.eq_def]
        simp [hne]
  | cons p ps ih =>
      intro fuel rest hf
      match fuel, hf with
      | f + 1, hf =>
        have hlt : ps.length < f := by
          simp only [List.length_cons] at hf
          omega
        have he : encodeRestFields (p :: ps) ++ rbraceChar :: rest =
            ',' :: (encodeField p ++ (encodeRestFields ps ++ rbraceChar :: rest)) := by
          simp [encodeRestFields]
        rw [he, parseMoreFields.eq_def]
        simp [parseField_encodeField, ih f rest hlt]

theorem parseMsgObj_encodeMsg (m : StoredMsg) (fuel : Nat) (rest : List Char)
    (hf : m.length < fuel) :
    parseMsgObj fuel (encodeMsg m ++ rest) = some (m, rest) := by
  match m with
  | [] =>
      rw [show encodeMsg [] ++ rest = lbraceChar :: rbraceChar :: rest
        by simp [encodeMsg]]
      rw [parseMsgObj.eq_def]
      simp
  | p :: ps =>
      have hlt : ps.length < fuel := by
        simp only [List.length_cons] at hf
        omega
      have h2 : encodeField p ++ (encodeRestFields ps ++ rbraceChar :: rest) =
          '"' :: (escapeString p.1.data ++
            '"' :: (':' :: '"' :: (escapeString p.2.data ++
              '"' :: (encodeRestFields ps ++ rbraceChar :: rest)))) := by
        simp [encodeField]
      have h1 : encodeMsg (p :: ps) ++ rest =
          lbraceChar :: ('"' :: (escapeString p.1.data ++
            '"' :: (':' :: '"' :: (escapeString p.2.data ++
              '"' :: (encodeRestFields ps ++ rbraceChar :: rest))))) := by
        rw [← h2]
        simp [encodeMsg]
      have h3 : parseField ('"' :: (escapeString p.1.data ++
          '"' :: (':' :: '"' :: (escapeString p.2.data ++
            '"' :: (encodeRestFields ps ++ rbraceChar :: rest))))) =
          some (p, encodeRestFields ps ++ rbraceChar :: rest) := by
        rw [← h2, parseField_encodeField]
      have hne : ¬ ('"' : Char) = rbraceChar := by decide
      rw [h1, parseMsgObj.eq_def]
      simp [hne, h3, parseMoreFields_encodeRest ps fuel rest hlt]

theorem parseMoreMsgs_encodeRest (ms : List StoredMsg) :
    ∀ (fuelM fuelF : Nat) (rest : List Char), ms.length < fuelM →
      (∀ m ∈ ms, m.length < fuelF) →
      parseMoreMsgs fuelM fuelF (encodeRestMsgs ms ++ ']' :: rest) =
        some (ms, rest) := by
  induction ms with
  | nil =>
      intro fuelM fuelF rest hM _
      match fuelM, hM with
      | f + 1, _ =>
        have hne : ¬ (']' : Char) = ',' := by decide
        rw [show encodeRestMsgs [] ++ ']' :: rest = ']' :: rest
          by simp [encodeRestMsgs]]
        rw [parseMoreMsgs.eq_def]
        simp [hne]
  | cons m ms ih =>
      intro fuelM fuelF rest hM hF
      match fuelM, hM with
      | f + 1, hM =>
        have hlt : ms.length < f := by
          simp only [List.length_cons] at hM
          omega
        have hm : m.length < fuelF := hF m (by simp)
        have hF2 : ∀ m2 ∈ ms, m2.length < fuelF := by
          intro m2 hm2
          exact hF m2 (by simp [hm2])
        have he : encodeRestMsgs (m :: ms) ++ ']' :: rest =
            ',' :: (encodeMsg m ++ (encodeRestMsgs ms ++ ']' :: rest)) := by
          simp [encodeRestMsgs]
        rw [he, parseMoreMsgs.eq_def]
        simp [parseMsgObj_encodeMsg m fuelF _ hm, ih f fuelF rest hlt hF2]

theorem parseMsgs_stringify (l : List StoredMsg) (fuelM fuelF : Nat)
    (rest : List Char) (hM : l.length < fuelM)
    (hF : ∀ m ∈ l, m.length < fuelF) :
    parseMsgs fuelM fuelF (stringifyMsgs l ++ rest) = some (l, rest) := by
  match l with
  | [] =>
      rw [show stringifyMsgs [] ++ rest = '[' :: ']' :: rest
        by simp [stringifyMsgs]]
      rw [parseMsgs.eq_def]
      simp
  | m :: ms =>
      have hlt : ms.length < fuelM := by
        simp only [List.length_cons] at hM
        omega
      have hm : m.length < fuelF := hF m (by simp)
      have hF2 : ∀ m2 ∈ ms, m2.length < fuelF := by
        intro m2 hm2
        exact hF m2 (by simp [hm2])
      have hhead : ∃ t, encodeMsg m = lbraceChar :: t := by
        match m with
        | [] => exact ⟨_, rfl⟩
        | p :: ps => exact ⟨_, rfl⟩
      obtain ⟨t, ht⟩ := hhead
      have h2 : encodeMsg m ++ (encodeRestMsgs ms ++ ']' :: rest) =
          lbraceChar :: (t ++ (encodeRestMsgs ms ++ ']' :: rest)) := by
        rw [ht]
        simp
      have h1 : stringifyMsgs (m :: ms) ++ rest =
          '[' :: (lbraceChar :: (t ++ (encodeRestMsgs ms ++ ']' :: rest))) := by
        rw [← h2]
        simp [stringifyMsgs]
      have hne : ¬ lbraceChar = ']' := by decide
      rw [h1, parseMsgs.eq_def]
      simp only [if_pos rfl, hne, if_false, ← h2,
        parseMsgObj_encodeMsg m fuelF _ hm,
        parseMoreMsgs_encodeRest ms fuelM fuelF rest hlt hF2]
      simp

theorem one_le_length_encodeField (p : String × String) :
    1 ≤ (encodeField p).length := by
  simp [encodeField]

theorem length_encodeRestFields (ps : List (String × String)) :
    ps.length ≤ (encodeRestFields ps).length := by
  induction ps with
  | nil => simp [encodeRestFields]
  | cons p rest ih =>
      simp only [encodeRestFields, List.length_cons, List.length_append]
      omega

theorem length_lt_length_encodeMsg (m : StoredMsg) :
    m.length < (encodeMsg m).length := by
  match m with
  | [] => simp [encodeMsg]
  | p :: ps =>
      have h1 := one_le_length_encodeField p
      have h2 := length_encodeRestFields ps
      simp only [encodeMsg, List.length_cons, List.length_append]
      simp only [List.length_cons, List.length_nil]
      omega

theorem length_encodeRestMsgs (ms : List StoredMsg) :
    ms.length ≤ (encodeRestMsgs ms).length := by
  induction ms with
  | nil => simp [encodeRestMsgs]
  | cons m rest ih =>
      simp only [encodeRestMsgs, List.length_cons, List.length_append]
      omega

theorem length_le_stringify (l : List StoredMsg) :
    l.length ≤ (stringifyMsgs l).length := by
  match l with
  | [] => simp [stringifyMsgs]
  | m :: ms =>
      have h := length_encodeRestMsgs ms
      simp only [stringifyMsgs, List.length_cons, List.length_append]
      simp only [List.length_cons, List.length_nil]
      omega

theorem length_encodeMsg_le_encodeRestMsgs (m : StoredMsg)
    (ms : List StoredMsg) (hm : m ∈ ms) :
    (encodeMsg m).length ≤ (encodeRestMsgs ms).length := by
  induction ms with
  | nil => simp at hm
  | cons m2 rest ih =>
      simp only [List.mem_cons] at hm
      simp only [encodeRestMsgs, List.length_cons, List.length_append]
      cases hm with
      | inl h => subst h; omega
      | inr h => have := ih h; omega

theorem length_encodeMsg_le_stringify (m : StoredMsg) (l : List StoredMsg)
    (hm : m ∈ l) : (encodeMsg m).length ≤ (stringifyMsgs l).length := by
  match l with
  | [] => simp at hm
  | m2 :: ms =>
      simp only [List.mem_cons] at hm
      simp only [stringifyMsgs, List.length_cons, List.length_append]
      cases hm with
      | inl h => subst h; omega
      | inr h => have := length_encodeMsg_le_encodeRestMsgs m ms h; omega

/-- `JSON.parse ∘ JSON.stringify` is the identity on message sequences. -/
theorem jsonParse_stringify (l : List StoredMsg) :
    jsonParseMsgs (String.mk (stringifyMsgs l)) = some l := by
  have hM : l.length < (stringifyMsgs l).length + 1 :=
    Nat.lt_succ_of_le (length_le_stringify l)
  have hF : ∀ m ∈ l, m.length < (stringifyMsgs l).length + 1 := by
    intro m hm
    exact Nat.lt_succ_of_le (Nat.le_trans
      (Nat.le_of_lt (length_lt_length_encodeMsg m))
      (length_encodeMsg_le_stringify m l hm))
  have h := parseMsgs_stringify l ((stringifyMsgs l).length + 1)
    ((stringifyMsgs l).length + 1) [] hM hF
  rw [List.append_nil] at h
  rw [jsonParseMsgs]
  have htl : (String.mk (stringifyMsgs l)).toList = stringifyMsgs l := rfl
  rw [htl, h]

theorem displayMessage_save (sessionId : String) (message : StoredMsg)
    (st : SessionState) :
    displayMessage sessionId message true st =
      { messages := st.messages ++ [message]
        store := setLocalStorageItem st.store (convKey sessionId)
          (st.messages ++ [message]) } := rfl

theorem displayMessage_nosave (sessionId : String) (message : StoredMsg)
    (st : SessionState) :
    displayMessage sessionId message false st = st := rfl

/-- **C4** Append/load round trip: starting from a state whose in-memory
sequence agrees with the persisted history (as `initSession`
establishes), running any sequence of `displayMessage` calls and then
loading the history for that session returns exactly the prior history
followed by the messages displayed with `save = true`, in order. -/
theorem append_loadHistory_roundtrip (sessionId : String)
    (ops : List (StoredMsg × Bool)) (st : SessionState)
    (hsync : st.messages = loadHistory st.store sessionId) :
    loadHistory
      (ops.foldl (fun s op => displayMessage sessionId op.1 op.2 s) st).store
      sessionId =
      st.messages ++ (ops.filter (fun op => op.2)).map (fun op => op.1) := by
  induction ops generalizing st with
  | nil => simpa using hsync.symm
  | cons op ops ih =>
      obtain ⟨msg, save⟩ := op
      cases save with
      | false =>
          rw [List.foldl_cons]
          simp only [displayMessage_nosave]
          rw [ih st hsync]
          simp
      | true =>
          rw [List.foldl_cons]
          simp only [displayMessage_save]
          have hsync2 :
              (st.messages ++ [msg]) = loadHistory
                (setLocalStorageItem st.store (convKey sessionId)
                  (st.messages ++ [msg])) sessionId := by
            rw [loadHistory, getLocalStorageItem, setLocalStorageItem,
              jsLookup_setKey, if_pos rfl]
            simp [jsonParse_stringify]
          rw [ih _ hsync2]
          simp

/-- Witness for `append_loadHistory_roundtrip`: a fresh session, one
saved user message, one unsaved re-render, one saved bot message. -/
theorem append_loadHistory_roundtrip_witness :
    loadHistory
      (([([("sender", "user"), ("text", "hi")], true),
         ([("sender", "bot"), ("text", "old")], false),
         ([("sender", "bot"), ("text", "hello")], true)].foldl
        (fun s op => displayMessage "sess-1" op.1 op.2 s)
        ⟨[], []⟩).store) "sess-1" =
      [] ++ [[("sender", "user"), ("text", "hi")],
        [("sender", "bot"), ("text", "hello")]] := by
  have h := append_loadHistory_roundtrip "sess-1"
    [([("sender", "user"), ("text", "hi")], true),
     ([("sender", "bot"), ("text", "old")], false),
     ([("sender", "bot"), ("text", "hello")], true)]
    ⟨[], []⟩ rfl
  exact h

theorem foldl_displayMessage_two (sessionId : String) (m1 m2 : StoredMsg)
    (st : SessionState) :
    (([m1, m2]).foldl (fun s m => displayMessage sessionId m true s) st).messages =
      st.messages ++ [m1, m2] := by
  simp [displayMessage_save]

/-- **C3 counterexample** The claim asserts one fixed apology text shared
by all failure cases, but the empty-response-list case uses a different
fixed text than the non-2xx / network-error / malformed-JSON cases. -/
theorem sendMessage_fallback_texts_differ :
    (sendMessage "s" (some "hi") none "" (.httpResponse false none)).2 =
      [[("sender", "user"), ("text", "hi")],
       [("sender", "bot"), ("text", connectFallbackText)]] ∧
    (sendMessage "s" (some "hi") none "" (.httpResponse true (some (some [])))).2 =
      [[("sender", "user"), ("text", "hi")],
       [("sender", "bot"), ("text", emptyFallbackText)]] ∧
    ¬ connectFallbackText = emptyFallbackText := by
  refine ⟨rfl, rfl, by decide⟩

/-- **C3** (amended) On every failing send — non-2xx status, network
error, malformed JSON, or empty response list — exactly one synthetic
bot message with a fixed apology text is rendered and appended after the
user message, and `sendMessage` returns normally (the `catch` swallows
every thrown error).  The non-2xx, network-error and malformed-JSON
cases share one fixed text; the empty-list case uses a different fixed
text. -/
theorem sendMessage_failure_fallback (sessionId : String)
    (text payload : Option String) (inputValue : String)
    (outcome : SendOutcome) (st : SessionState)
    (hsend : ¬(messageTextOf text inputValue = "" ∧ falsyOpt payload = true))
    (hfail : isFailureOutcome outcome = true) :
    (sendMessagePersist sessionId text payload inputValue outcome st).2.messages =
      st.messages ++
        [[("sender", "user"), ("text", messageTextOf text inputValue)],
         [("sender", "bot"), ("text", expectedFallbackText outcome)]] := by
  have hmain : (sendMessage sessionId text payload inputValue outcome).2 =
      [[("sender", "user"), ("text", messageTextOf text inputValue)],
       [("sender", "bot"), ("text", expectedFallbackText outcome)]] := by
    simp only [sendMessage]
    rw [if_neg hsend]
    cases outcome with
    | networkError => rfl
    | httpResponse ok body =>
        cases ok with
        | false => rfl
        | true =>
            cases body with
            | none => rfl
            | some arr =>
                cases arr with
                | none => simp [isFailureOutcome] at hfail
                | some rs =>
                    cases rs with
                    | cons r rest => simp [isFailureOutcome] at hfail
                    | nil => rfl
  rw [sendMessagePersist]
  simp only [hmain]
  exact foldl_displayMessage_two sessionId _ _ st

/-- Witness for `sendMessage_failure_fallback`: an HTTP 500 response. -/
theorem sendMessage_failure_fallback_witness :
    (sendMessagePersist "sess" (some "hello") none ""
      (.httpResponse false none) ⟨[], []⟩).2.messages =
      [] ++ [[("sender", "user"), ("text", messageTextOf (some "hello") "")],
        [("sender", "bot"),
         ("text", expectedFallbackText (.httpResponse false none))]] := by
  exact sendMessage_failure_fallback "sess" (some "hello") none ""
    (.httpResponse false none) ⟨[], []⟩ (by decide) rfl

/-- **C5 counterexample** `refreshConfig` never checks the response
status: a 500 response whose body parses as JSON is merged like a
success, changing the effective config and returning `true`. -/
theorem refreshConfig_non2xx_merges :
    jsLookup (refreshConfig
      (⟨[("botName", "A")], none, none⟩ : Config String)
      (.response 500 (some ⟨[("botName", "B")], none, none⟩))).1.top "botName" =
      some "B" ∧
    jsLookup (⟨[("botName", "A")], none, none⟩ : Config String).top "botName" =
      some "A" ∧
    (refreshConfig (⟨[("botName", "A")], none, none⟩ : Config String)
      (.response 500 (some ⟨[("botName", "B")], none, none⟩))).2 = true := by
  refine ⟨rfl, rfl, rfl⟩

/-- **C5** (amended) On a network error or an unparseable body, the
effective config after a refresh attempt is identical to the one before
and the failure is reported with `false`; a non-2xx status by itself is
not detected — only these two failure kinds leave the config
untouched. -/
theorem refreshConfig_failure_preserves {α : Type} (current : Config α)
    (outcome : FetchOutcome α)
    (hfail : outcome = .networkError ∨ ∃ s, outcome = .response s none) :
    (refreshConfig current outcome).1 = current ∧
    (refreshConfig current outcome).2 = false := by
  rcases hfail with h | ⟨s, h⟩ <;> subst h <;> exact ⟨rfl, rfl⟩

/-- Witness for `refreshConfig_failure_preserves`: a network error. -/
theorem refreshConfig_failure_preserves_witness :
    (refreshConfig (⟨[("botName", "A")], none, none⟩ : Config String)
      .networkError).1 = ⟨[("botName", "A")], none, none⟩ ∧
    (refreshConfig (⟨[("botName", "A")], none, none⟩ : Config String)
      .networkError).2 = false := by
  exact refreshConfig_failure_preserves
    (⟨[("botName", "A")], none, none⟩ : Config String) .networkError (Or.inl rfl)

/-- **C10** For every send carrying a (truthy) payload: the user message
rendered and appended holds exactly the sender `user` and the visible
text; the payload is carried in the request body under
`customData.payload`; and the resulting widget state — in-memory history
and persisted store alike — is independent of the payload value, so the
payload is never written to the persisted history. -/
theorem sendMessage_payload_frame (sessionId : String) (text : Option String)
    (inputValue : String) (outcome : SendOutcome) (st : SessionState)
    (p q : String) (hp : ¬ p = "") (hq : ¬ q = "") :
    (sendMessagePersist sessionId text (some p) inputValue outcome st).1 =
      some { sender := sessionId, message := messageTextOf text inputValue,
             customData := some p } ∧
    (sendMessage sessionId text (some p) inputValue outcome).2.head? =
      some [("sender", "user"), ("text", messageTextOf text inputValue)] ∧
    (sendMessagePersist sessionId text (some p) inputValue outcome st).2 =
      (sendMessagePersist sessionId text (some q) inputValue outcome st).2 := by
  have hfp : falsyOpt (some p) = false := by
    simp [falsyOpt, hp]
  have hfq : falsyOpt (some q) = false := by
    simp [falsyOpt, hq]
  have hcond : ¬(messageTextOf text inputValue = "" ∧
      falsyOpt (some p) = true) := by
    simp [hfp]
  have hcondq : ¬(messageTextOf text inputValue = "" ∧
      falsyOpt (some q) = true) := by
    simp [hfq]
  refine ⟨?_, ?_, ?_⟩
  · simp only [sendMessagePersist, sendMessage]
    rw [if_neg hcond, hfp]
    rfl
  · simp only [sendMessage]
    rw [if_neg hcond]
    rfl
  · simp only [sendMessagePersist, sendMessage]
    rw [if_neg hcond, if_neg hcondq]

/-- Witness for `sendMessage_payload_frame`: a concrete payload-carrying
send. -/
theorem sendMessage_payload_frame_witness :
    (sendMessagePersist "sess" (some "Pay") (some "/pay") ""
      (.httpResponse true (some (some [[("text", "done")]]))) ⟨[], []⟩).1 =
      some { sender := "sess", message := messageTextOf (some "Pay") "",
             customData := some "/pay" } := by
  exact (sendMessage_payload_frame "sess" (some "Pay") ""
    (.httpResponse true (some (some [[("text", "done")]]))) ⟨[], []⟩
    "/pay" "/other" (by decide) (by decide)).1

theorem isOk_exists {ε α : Type} (x : Except ε α) (h : x.isOk = true) :
    ∃ a, x = .ok a := by
  cases x with
  | ok a => exact ⟨a, rfl⟩
  | error e => simp [Except.isOk, Except.toBool] at h

theorem createVideo_falsy (v : VideoObj) (h : falsyOpt v.url = true) :
    createVideo v = .ok none := by
  rw [createVideo, if_pos h]

theorem createVideo_isOk_of_not_throws (v : VideoObj)
    (h : createVideoThrows v = false) : (createVideo v).isOk = true := by
  by_cases hf : falsyOpt v.url = true
  · rw [createVideo_falsy v hf]
    rfl
  · have hf2 : falsyOpt v.url = false := by
      cases hfo : falsyOpt v.url
      · rfl
      · exact absurd hfo hf
    by_cases hyb : containsSub "youtu.be" (v.url.getD "") = true
    · simp [createVideo, hf2, hyb]
      try rfl
    · have hyb2 : containsSub "youtu.be" (v.url.getD "") = false := by
        cases hc : containsSub "youtu.be" (v.url.getD "")
        · rfl
        · exact absurd hc hyb
      by_cases hw : containsSub "youtube.com/watch" (v.url.getD "") = true
      · cases hg : (jsSplit "v=" (v.url.getD ""))[1]? with
        | none =>
            exfalso
            rw [createVideoThrows] at h
            simp [hf2, hyb2, hw, hg] at h
        | some second =>
            simp [createVideo, hf2, hyb2, hw, hg]
            try rfl
      · have hw2 : containsSub "youtube.com/watch" (v.url.getD "") = false := by
          cases hc : containsSub "youtube.com/watch" (v.url.getD "")
          · rfl
          · exact absurd hc hw
        simp [createVideo, hf2, hyb2, hw2]
        try rfl

theorem renderCustomPayload_isOk (cp : CustomPayload)
    (hcv : ∀ v, cp.video = some v → createVideoThrows v = false) :
    (renderCustomPayload cp).isOk = true := by
  cases hv : cp.video with
  | none =>
      simp only [renderCustomPayload, hv]
      rfl
  | some v =>
      obtain ⟨x, hx⟩ := isOk_exists _
        (createVideo_isOk_of_not_throws v (hcv v hv))
      simp only [renderCustomPayload, hv, hx]
      rfl

/-- **C6 counterexample** A video whose url is a YouTube watch link
without a `v=` parameter makes `createVideo` throw a `TypeError`
(`url.split("v=")[1]` is `undefined`), and the exception propagates out
of the message render. -/
theorem createVideo_watch_without_id_throws :
    createVideo ⟨some "https://www.youtube.com/watch", false⟩ =
      .error "TypeError: undefined has no method split" ∧
    (displayChildren
      ({ sender := "bot", text := some "Watch this", buttons := [],
         image := none,
         video := some ⟨some "https://www.youtube.com/watch", false⟩,
         carousel := [], custom := none } : RMessage)).isOk = false := by
  exact ⟨rfl, rfl⟩

/-- **C6** (amended) Rendering a message never throws and produces no
node for an absent or malformed field while the remaining fields still
render — except for a video whose url contains `youtube.com/watch` but
neither `youtu.be` nor a `v=` parameter, where rendering throws.
Outside that case: the render succeeds, and a video field with a
missing url contributes nothing, leaving the rest of the render
unchanged. -/
theorem renderSkip_amended (m : RMessage)
    (hv : ∀ v, m.video = some v → createVideoThrows v = false)
    (hcv : ∀ cp, m.custom = some cp → ∀ v, cp.video = some v →
      createVideoThrows v = false) :
    (displayChildren m).isOk = true ∧
    (∀ v, m.video = some v → falsyOpt v.url = true →
      displayChildren m = displayChildren { m with video := none }) := by
  constructor
  · cases hmv : m.video with
    | none =>
        cases hmc : m.custom with
        | none =>
            simp only [displayChildren, hmv, hmc]
            rfl
        | some cp =>
            obtain ⟨n, hn⟩ := isOk_exists _
              (renderCustomPayload_isOk cp (hcv cp hmc))
            simp only [displayChildren, hmv, hmc, hn]
            rfl
    | some v =>
        obtain ⟨x, hx⟩ := isOk_exists _
          (createVideo_isOk_of_not_throws v (hv v hmv))
        cases hmc : m.custom with
        | none =>
            simp only [displayChildren, hmv, hmc, hx]
            rfl
        | some cp =>
            obtain ⟨n, hn⟩ := isOk_exists _
              (renderCustomPayload_isOk cp (hcv cp hmc))
            simp only [displayChildren, hmv, hmc, hx, hn]
            rfl
  · intro v hmv hfurl
    have hok : createVideo v = .ok none := createVideo_falsy v hfurl
    simp only [displayChildren, hmv, hok]
    rfl

/-- Witness for `renderSkip_amended`: a message carrying a well-formed
`youtu.be` video link. -/
theorem renderSkip_amended_witness :
    (displayChildren
      ({ sender := "bot", text := some "hi", buttons := [], image := none,
         video := some ⟨some "https://youtu.be/abc?t=1", false⟩,
         carousel := [], custom := none } : RMessage)).isOk = true := by
  exact (renderSkip_amended
    ({ sender := "bot", text := some "hi", buttons := [], image := none,
       video := some ⟨some "https://youtu.be/abc?t=1", false⟩,
       carousel := [], custom := none } : RMessage)
    (by intro v hv2; cases hv2; decide)
    (by intro cp hcp; cases hcp)).1

theorem clickButton_cases (buttons : List ButtonSpec) (disabled : List Bool)
    (i : Nat) :
    clickButton buttons disabled i = ([], disabled) ∨
    (∃ u, clickButton buttons disabled i = ([.openUrl u], disabled)) ∨
    (∃ t p, clickButton buttons disabled i =
      ([.submit t p], disabled.map (fun _ => true))) := by
  rw [clickButton]
  by_cases hd : disabled.getD i false = true
  · rw [if_pos hd]
    exact Or.inl rfl
  · rw [if_neg hd]
    cases buttons.get? i with
    | none => exact Or.inl rfl
    | some btn =>
        by_cases hp : falsyOpt btn.payload = false
        · refine Or.inr (Or.inr ⟨btn.title, btn.payload.getD "", ?_⟩)
          simp [hp]
        · by_cases hu : falsyOpt btn.url = false
          · refine Or.inr (Or.inl ⟨btn.url.getD "", ?_⟩)
            simp [hp, hu]
          · by_cases hq : falsyOpt btn.question = false
            · refine Or.inr (Or.inr ⟨btn.title, btn.question.getD "", ?_⟩)
              simp [hp, hu, hq]
            · refine Or.inl ?_
              simp [hp, hu, hq]

theorem clickButton_allTrue (buttons : List ButtonSpec) (disabled : List Bool)
    (i : Nat) (hall : ∀ b ∈ disabled, b = true)
    (hlen : disabled.length = buttons.length) :
    clickButton buttons disabled i = ([], disabled) := by
  rw [clickButton]
  by_cases hi : i < disabled.length
  · have hget : disabled.getD i false = true := by
      rw [List.getD_eq_getElem?_getD]
      rw [List.getElem?_eq_getElem hi]
      exact hall _ (List.getElem_mem hi)
    rw [if_pos hget]
  · have hget : disabled.getD i false = false := by
      rw [List.getD_eq_getElem?_getD]
      rw [List.getElem?_eq_none (by omega)]
      rfl
    rw [if_neg (by rw [hget]; exact Bool.false_ne_true)]
    have hbi : buttons.get? i = none := by
      rw [List.get?_eq_none]
      omega
    rw [hbi]

theorem runClicks_allTrue (buttons : List ButtonSpec) (clicks : List Nat)
    (disabled : List Bool) (hall : ∀ b ∈ disabled, b = true)
    (hlen : disabled.length = buttons.length) :
    runClicks buttons clicks disabled = ([], disabled) := by
  induction clicks with
  | nil => rfl
  | cons i rest ih =>
      rw [runClicks, clickButton_allTrue buttons disabled i hall hlen, ih]
      rfl

theorem runClicks_submits_le_one (buttons : List ButtonSpec)
    (clicks : List Nat) (disabled : List Bool)
    (hlen : disabled.length = buttons.length) :
    ((runClicks buttons clicks disabled).1.filter isSubmit).length ≤ 1 := by
  induction clicks generalizing disabled with
  | nil => simp [runClicks]
  | cons i rest ih =>
      rcases clickButton_cases buttons disabled i with h | ⟨u, h⟩ | ⟨t, p, h⟩
      · rw [runClicks, h]
        simpa using ih disabled hlen
      · rw [runClicks, h]
        simpa [isSubmit] using ih disabled hlen
      · rw [runClicks, h]
        have hrest : runClicks buttons rest (disabled.map (fun _ => true)) =
            ([], disabled.map (fun _ => true)) :=
          runClicks_allTrue buttons rest _ (by simp) (by simpa using hlen)
        simp at hrest
        simp [hrest, isSubmit]

/-- **C7 counterexample** Activating a `url` button dispatches its open
action but disables nothing: the group's flags are unchanged, not set as
a whole. -/
theorem clickButton_url_no_disable :
    clickButton
      [⟨"Pay", some "/pay", none, none, none⟩,
       ⟨"Site", none, some "https://example.com", none, none⟩]
      [false, false] 1 =
      ([.openUrl "https://example.com"], [false, false]) ∧
    ¬ ([false, false] = [true, true]) := by
  exact ⟨rfl, by decide⟩

/-- **C7** (amended) Every activation dispatches at most one action;
`payload` and `question` activations disable the whole group as a set;
`url` activations disable nothing; and across any sequence of clicks on
a freshly rendered (all-enabled) group, at most one submission is ever
dispatched. -/
theorem clickButton_amended (buttons : List ButtonSpec) :
    (∀ disabled i, (clickButton buttons disabled i).1.length ≤ 1) ∧
    (∀ disabled i t p, (clickButton buttons disabled i).1 = [.submit t p] →
      (clickButton buttons disabled i).2 = disabled.map (fun _ => true)) ∧
    (∀ disabled i u, (clickButton buttons disabled i).1 = [.openUrl u] →
      (clickButton buttons disabled i).2 = disabled) ∧
    (∀ clicks, ((runClicks buttons clicks
        (List.replicate buttons.length false)).1.filter isSubmit).length ≤ 1) := by
  refine ⟨?_, ?_, ?_, ?_⟩
  · intro disabled i
    rcases clickButton_cases buttons disabled i with h | ⟨u, h⟩ | ⟨t, p, h⟩ <;>
      simp [h]
  · intro disabled i t p hact
    rcases clickButton_cases buttons disabled i with h | ⟨u, h⟩ | ⟨t2, p2, h⟩ <;>
      rw [h] at hact ⊢ <;> simp_all
  · intro disabled i u hact
    rcases clickButton_cases buttons disabled i with h | ⟨u2, h⟩ | ⟨t2, p2, h⟩ <;>
      rw [h] at hact ⊢ <;> simp_all
  · intro clicks
    exact runClicks_submits_le_one buttons clicks _ (by simp)

/-- Witness for `clickButton_amended`: a payload button's activation
disables its group. -/
theorem clickButton_amended_witness :
    (clickButton [⟨"Pay", some "/pay", none, none, none⟩] [false] 0).2 =
      [false].map (fun _ => true) := by
  exact (clickButton_amended
    [⟨"Pay", some "/pay", none, none, none⟩]).2.1 [false] 0 "Pay" "/pay" rfl

/-- **C8** Clicking star `i` of a rating with scale `n` (for `1 ≤ i ≤ n`)
hands the send callback exactly one pair whose payload is the
`rate_service` command carrying `{"rating": i}`, and marks each star
selected exactly when its value is at most `i`; the rendered stars are
`n, …, 1` in layout order, covering every value `1..n`. -/
theorem clickStar_spec (n i : Nat) (h1 : 1 ≤ i) (h2 : i ≤ n) :
    (clickStar n i).1 = ("Rated " ++ toString i ++ " stars", ratePayload i) ∧
    (∀ v sel, (v, sel) ∈ (clickStar n i).2 → (sel = true ↔ v ≤ i)) ∧
    ((clickStar n i).2.map Prod.fst = ratingStars n) ∧
    (∀ v, 1 ≤ v → v ≤ n → (v, decide (v ≤ i)) ∈ (clickStar n i).2) := by
  refine ⟨rfl, ?_, ?_, ?_⟩
  · intro v sel hmem
    simp only [clickStar, List.mem_map] at hmem
    obtain ⟨a, _, ha⟩ := hmem
    rw [Prod.mk.injEq] at ha
    obtain ⟨hv, hsel⟩ := ha
    subst hv
    subst hsel
    simp
  · simp only [clickStar, List.map_map]
    have hcomp : (Prod.fst ∘ fun v : Nat => (v, decide (v ≤ i))) = id := rfl
    rw [hcomp, List.map_id]
  · intro v hv1 hv2
    simp only [clickStar, List.mem_map]
    refine ⟨v, ?_, rfl⟩
    simp only [ratingStars, List.mem_map, List.mem_range]
    exact ⟨n - v, by omega, by omega⟩

/-- Witness for `clickStar_spec`: the spec scenario, scale 5 and star 3
clicked — the one outgoing pair carries the `rate_service` payload for
rating 3. -/
theorem clickStar_spec_witness :
    (clickStar 5 3).1 = ("Rated " ++ toString 3 ++ " stars", ratePayload 3) := by
  exact (clickStar_spec 5 3 (by decide) (by decide)).1

end ChatbotSDK
